import Mathlib

/-!
Verification of the Bitunix stop-loss manager (`script.py`).

This file gives a shallow embedding of the program's data model and
operations and settles a list of claims about it.

Modelling conventions, used throughout:
- Python strings are modelled as `List Char`; `str.upper()` is modelled on
  the ASCII range (the program only handles ASCII symbol names).
- Python numbers (`int` and `float`) are modelled as exact rationals `ℚ`.
  The spec's numeric properties are stated over exact arithmetic, and the
  one numerically sensitive function of the source (`quantize_price`) is
  implemented there with exact `Decimal` arithmetic over the shortest
  decimal representation of its inputs, which the `ℚ` model matches for
  decimal-representable inputs.
- Python `dict`s are modelled as association lists with distinct keys;
  `dict.get(k)` returns a `None`-like default when the key is absent.
- Code that can raise an exception is modelled with `Option`/`Except`:
  a `none`/`.error` result marks an exception escaping the modelled call.
- The network is modelled as an oracle (`Env`) giving each API call's
  response or failure for one iteration of the polling loop; the SHA-256
  primitive of the signing step is passed in as an abstract hex-digest
  function, since only the structure of the signed material is claimed.
-/

/-- Python's `str.upper`, per character, on the ASCII range:
a lowercase ASCII letter (code 97–122) is shifted down by 32. -/
def upperChar (c : Char) : Char :=
  if 97 ≤ c.toNat ∧ c.toNat ≤ 122 then Char.ofNat (c.toNat - 32) else c

/-- Python's `s.replace("PERP", "")`: scan left to right, dropping each
(non-overlapping) occurrence of `PERP`; the output is not re-scanned. -/
def removePERP : List Char → List Char
  | [] => []
  | [a] => [a]
  | [a, b] => [a, b]
  | [a, b, c] => [a, b, c]
  | a :: b :: c :: d :: rest =>
    if a = 'P' ∧ b = 'E' ∧ c = 'R' ∧ d = 'P' then removePERP rest
    else a :: removePERP (b :: c :: d :: rest)

/-- `normalize_symbol` (script.py:128-132): uppercase, delete every `-`
and `_` (the `re.sub(r'[-_]', '', s)` step), then delete every occurrence
of the literal substring `PERP`. -/
def normalize_symbol (s : List Char) : List Char :=
  removePERP (((s.map upperChar).filter fun c => ¬(c = '-' ∨ c = '_')))

/-- `symbol_variants` (script.py:134-141): uppercase the input; if it ends
in `USDT` strip that suffix to get `root`, otherwise append `USDT` to form
`base`; return the four spellings `base`, `root_USDT`, `root-USDT`,
`base-PERP`. -/
def symbol_variants (b : List Char) : List (List Char) :=
  let b1 := b.map upperChar
  let root := if (['U', 'S', 'D', 'T'] : List Char).isSuffixOf b1 then b1.take (b1.length - 4) else b1
  let base := if (['U', 'S', 'D', 'T'] : List Char).isSuffixOf b1 then b1 else b1 ++ ['U', 'S', 'D', 'T']
  [base, root ++ ("_USDT".data), root ++ ("-USDT".data), base ++ ("-PERP".data)]

/-- A Python value as it occurs in the program's API responses. -/
inductive PyVal where
  | none
  | bool (b : Bool)
  | num (q : ℚ)
  | str (s : List Char)
  | dict (fields : List (List Char × PyVal))

/-- A JSON-object response record / position record: a Python dict. -/
abbrev Record := List (List Char × PyVal)

/-- Python truthiness of a value (`bool(v)`). -/
def truthy : PyVal → Bool
  | PyVal.none => false
  | PyVal.bool b => b
  | PyVal.num q => decide (q ≠ 0)
  | PyVal.str s => ¬s.isEmpty
  | PyVal.dict d => ¬d.isEmpty

/-- Python's short-circuit `a or b` on values. -/
def pyOr (a b : PyVal) : PyVal :=
  if truthy a then a else b

/-- Python's `dict.get(k)` (default `None`) on an association list. -/
def recGet : Record → List Char → PyVal
  | [], _ => PyVal.none
  | kv :: rest, k => if kv.1 = k then kv.2 else recGet rest k

/-- Decimal digits of a natural number (used by `pyStr`). -/
def natRepr (n : Nat) : List Char :=
  Nat.toDigits 10 n

/-- Python's `str()` conversion. Integral numbers print their digits; the
textual form of non-integral numbers and of nested dicts is not relied on
by any claim and is abbreviated to a `numerator/denominator` form resp. a
constant tag. -/
def pyStr : PyVal → List Char
  | PyVal.none => "None".data
  | PyVal.bool b => if b then ("True".data) else ("False".data)
  | PyVal.num q =>
    if q.den = 1 then
      (if q.num < 0 then '-' :: natRepr q.num.natAbs else natRepr q.num.natAbs)
    else
      (if q.num < 0 then '-' :: natRepr q.num.natAbs else natRepr q.num.natAbs) ++ '/' :: natRepr q.den
  | PyVal.str s => s
  | PyVal.dict _ => "dict".data

/-- ASCII digit test. -/
def isDigitChar (c : Char) : Bool :=
  48 ≤ c.toNat ∧ c.toNat ≤ 57

/-- Value of a digit string (most significant first). -/
def digitsVal (l : List Char) : Nat :=
  l.foldl (fun a c => a * 10 + (c.toNat - 48)) 0

/-- Parse `[sign]digits` as an integer (Python's `int(str)` on its plain
decimal subset); `none` models a `ValueError`. -/
def parseInt (s : List Char) : Option ℤ :=
  let core : List Char → Option ℤ := fun l =>
    if l ≠ [] ∧ l.all isDigitChar then some (digitsVal l : ℤ) else Option.none
  match s with
  | '+' :: r => core r
  | '-' :: r => (core r).map (fun z => -z)
  | r => core r

/-- Parse `digits[.digits]` (at least one digit overall) as a rational. -/
def parseMantissa (s : List Char) : Option ℚ :=
  let parts := s.splitOn '.'
  match parts with
  | [ip] =>
    if ip ≠ [] ∧ ip.all isDigitChar then some (digitsVal ip : ℚ) else Option.none
  | [ip, fp] =>
    if (ip ≠ [] ∨ fp ≠ []) ∧ ip.all isDigitChar ∧ fp.all isDigitChar then
      some ((digitsVal ip : ℚ) + (digitsVal fp : ℚ) / (10 : ℚ) ^ fp.length)
    else Option.none
  | _ => Option.none

/-- Python's `float(str)` on the decimal-literal subset
`[sign]digits[.digits][(e|E)[sign]digits]`; other accepted forms
(`inf`, `nan`, underscores, surrounding whitespace) are outside the
modelled domain. `none` models a `ValueError`. -/
def parseFloat (s : List Char) : Option ℚ :=
  let signed : List Char → Option ℚ := fun t =>
    let withExp : List Char → Option ℚ := fun m =>
      match m.splitOn 'e' with
      | [mant] =>
        (match mant.splitOn 'E' with
         | [m0] => parseMantissa m0
         | [m0, e0] => (parseMantissa m0).bind fun v => (parseInt e0).map fun z => v * (10 : ℚ) ^ z
         | _ => Option.none)
      | [m0, e0] => (parseMantissa m0).bind fun v => (parseInt e0).map fun z => v * (10 : ℚ) ^ z
      | _ => Option.none
    withExp t
  match s with
  | '+' :: r => signed r
  | '-' :: r => (signed r).map (fun q => -q)
  | r => signed r

/-- Python's `float(v)` on a value; `none` models a raised exception
(`float(None)` / `float(dict)` raise, a non-numeric string raises). -/
def floatOfVal : PyVal → Option ℚ
  | PyVal.num q => some q
  | PyVal.bool b => some (if b then 1 else 0)
  | PyVal.str s => parseFloat s
  | _ => Option.none

/-- Truncation toward zero (Python's `int(float)`). -/
def ratTrunc (q : ℚ) : ℤ :=
  if 0 ≤ q then ⌊q⌋ else -⌊-q⌋

/-- Python's `int(v)` on a value; `none` models a raised exception. -/
def intOfVal : PyVal → Option ℤ
  | PyVal.num q => some (ratTrunc q)
  | PyVal.bool b => some (if b then 1 else 0)
  | PyVal.str s => parseInt s
  | _ => Option.none

/-- `safe_float` (script.py:143-151): return the first argument that
converts with `float()` (skipping `None` and conversion failures),
defaulting to `0.0`. -/
def safe_float : List PyVal → ℚ
  | [] => 0
  | v :: rest =>
    match floatOfVal v with
    | some x => x
    | Option.none => safe_float rest

/-- Calling `.upper()` on a value: defined on strings, an
`AttributeError` (modelled as `none`) on any other value. -/
def upperOfVal : PyVal → Option (List Char)
  | PyVal.str s => some (s.map upperChar)
  | _ => Option.none

/-- `extract_position_fields` (script.py:153-159). Returns
`(side, qty, entry, notional, position_id)`; `none` models the
`AttributeError` raised when the side-field chain yields a truthy
non-string value. -/
def extract_position_fields (p : Record) :
    Option (List Char × ℚ × ℚ × ℚ × List Char) :=
  match upperOfVal (pyOr (pyOr (pyOr (recGet p ("side".data)) (recGet p ("positionSide".data))) (recGet p ("posSide".data))) (PyVal.str [])) with
  | Option.none => Option.none
  | some side =>
    let qty := safe_float [recGet p ("qty".data), recGet p ("positionSize".data), recGet p ("size".data), recGet p ("volume".data), recGet p ("availableQty".data)]
    let entry := safe_float [recGet p ("avgOpenPrice".data), recGet p ("entryPrice".data), recGet p ("avgPrice".data)]
    let notional := safe_float [recGet p ("positionValue".data), if qty ≠ 0 ∧ entry ≠ 0 then PyVal.num (|qty| * entry) else PyVal.none]
    let position_id := pyStr (pyOr (pyOr (recGet p ("positionId".data)) (recGet p ("id".data))) (PyVal.str []))
    some (side, qty, entry, notional, position_id)

/-- The actionable-position invariant of the spec (§3), i.e. the negation
of the cleanup condition at script.py:227. -/
def actionable (t : List Char × ℚ × ℚ × ℚ × List Char) : Prop :=
  t.2.1 ≠ 0 ∧ 0 < t.2.2.1 ∧ 0 < t.2.2.2.1 ∧ t.2.2.2.2 ≠ []

instance (t : List Char × ℚ × ℚ × ℚ × List Char) : Decidable (actionable t) := by
  unfold actionable; infer_instance

/-- `derive_tick_from_symbol_info` (script.py:161-174). `none` models the
`AttributeError` raised when `tickSize` is absent/falsy and `priceFilter`
holds a truthy non-dict value. -/
def derive_tick_from_symbol_info (info : Record) : Option ℚ :=
  let t1 := recGet info ("tickSize".data)
  let tickRes : Except Unit PyVal :=
    if truthy t1 then Except.ok t1
    else
      match pyOr (recGet info ("priceFilter".data)) (PyVal.dict []) with
      | PyVal.dict d => Except.ok (recGet d ("tickSize".data))
      | _ => Except.error ()
  match tickRes with
  | Except.error _ => Option.none
  | Except.ok tick =>
    some
      (match (if truthy tick then floatOfVal tick else Option.none) with
       | some x => x
       | Option.none =>
         let scale := pyOr (pyOr (pyOr (recGet info ("quotePrecision".data)) (recGet info ("pricePrecision".data))) (recGet info ("priceScale".data))) (recGet info ("quoteScale".data))
         match scale with
         | PyVal.none => 1 / 100
         | sv =>
           match intOfVal sv with
           | some z => 1 / (10 : ℚ) ^ z
           | Option.none => 1 / 100)

/-- `quantize_price` (script.py:176-180): exact decimal arithmetic,
`steps = floor(price / tick)`, result `steps × tick`. At `tick = 0` the
source's `Decimal` division raises `DivisionByZero`; this total `ℚ`
version is only consulted for `tick ≠ 0` — the loop model (`loop_iter`)
routes a zero tick through its raise branch before quantizing. -/
def quantize_price (price tick : ℚ) : ℚ :=
  (⌊price / tick⌋ : ℤ) * tick

/-- The stop-price computation of a MANAGING tick (script.py:238-240):
`pct = max_loss_usdt*100/notional`, `delta = entry*(pct/100)`,
`entry - delta` when the side is `LONG` or `BUY`, else `entry + delta`. -/
def stop_price_calc (max_loss_usdt entry notional : ℚ) (side : List Char) : ℚ :=
  let pct := max_loss_usdt * 100 / notional
  let delta := entry * (pct / 100)
  if side = ("LONG".data) ∨ side = ("BUY".data) then entry - delta else entry + delta

/-- Body of the scan in `find_position_fuzzy` (script.py:185-190): walk the
position records; read the record's symbol via
`(p.get("symbol") or p.get("tradingPair") or "").upper()` (an
`Except.error` models the `AttributeError` on a truthy non-string value),
skip records with an empty symbol, and return the first record whose
normalized symbol is among the normalized target variants. -/
def find_position_go (targets : List (List Char)) :
    List Record → Except Unit (Option (Record × List Char))
  | [] => Except.ok Option.none
  | p :: rest =>
    match upperOfVal (pyOr (pyOr (recGet p ("symbol".data)) (recGet p ("tradingPair".data))) (PyVal.str [])) with
    | Option.none => Except.error ()
    | some api_sym =>
      if api_sym.isEmpty then find_position_go targets rest
      else if normalize_symbol api_sym ∈ targets then Except.ok (some (p, api_sym))
      else find_position_go targets rest

/-- `find_position_fuzzy` (script.py:182-194), with the response of
`get_all_pending_positions` passed in: the target set is the normalized
symbol variants of the user symbol. -/
def find_position_fuzzy (positions : List Record) (user_symbol : List Char) :
    Except Unit (Option (Record × List Char)) :=
  find_position_go ((symbol_variants user_symbol).map normalize_symbol) positions

/-- Lexicographic (code-point) comparison of Python strings, as used by
`sorted` on dict keys. -/
def lexLe : List Char → List Char → Bool
  | [], _ => true
  | _ :: _, [] => false
  | a :: as, b :: bs =>
    if a.toNat < b.toNat then true
    else if b.toNat < a.toNat then false
    else lexLe as bs

/-- Key order used to sort query parameters: compare keys with `lexLe`. -/
def keyLe (a b : List Char × List Char) : Bool :=
  lexLe a.1 b.1

/-- The canonical query string of `_sign` (script.py:48):
`"".join(f"{k}={params[k]}" for k in sorted(params))` — keys sorted
lexicographically, each pair concatenated as `key=value` with no
separator. Parameters are modelled as an association list with distinct
keys (a Python dict) whose values are already stringified (the f-string
applies `str()`). -/
def canonical_query (params : List (List Char × List Char)) : List Char :=
  if params.isEmpty then []
  else ((params.mergeSort keyLe).map fun kv => kv.1 ++ '=' :: kv.2).flatten

/-- JSON values as sent by the program (every request body the program
builds holds only string values, so numeric serialization is not
modelled). -/
inductive Json where
  | null
  | bool (b : Bool)
  | str (s : List Char)
  | obj (fields : List (List Char × Json))

/-- Lowercase hex digit. -/
def hexDigit (n : Nat) : Char :=
  if n < 10 then Char.ofNat (48 + n) else Char.ofNat (87 + n)

/-- `json.dumps` escaping of one character inside a string literal
(`ensure_ascii=False`): escape the quote, the backslash, and control
characters. -/
def escapeChar (c : Char) : List Char :=
  if c = '"' then ['\\', '"']
  else if c = '\\' then ['\\', '\\']
  else if c = '\n' then ['\\', 'n']
  else if c = '\t' then ['\\', 't']
  else if c = '\r' then ['\\', 'r']
  else if c = '\x08' then ['\\', 'b']
  else if c = '\x0c' then ['\\', 'f']
  else if c.toNat < 32 then ['\\', 'u', '0', '0', hexDigit (c.toNat / 16), hexDigit (c.toNat % 16)]
  else [c]

/-- A JSON string literal. -/
def dumpsString (s : List Char) : List Char :=
  '"' :: (s.map escapeChar).flatten ++ ['"']

mutual

/-- `json.dumps(body, separators=(",", ":"), ensure_ascii=False)`:
compact serialization, object keys kept in their supplied order. -/
def dumps : Json → List Char
  | Json.null => "null".data
  | Json.bool b => if b then ("true".data) else ("false".data)
  | Json.str s => dumpsString s
  | Json.obj fields => '\x7b' :: dumpsFields fields ++ ['\x7d']

/-- Comma-separated `"key":value` items of an object body. -/
def dumpsFields : List (List Char × Json) → List Char
  | [] => []
  | [kv] => dumpsString kv.1 ++ ':' :: dumps kv.2
  | kv :: rest => dumpsString kv.1 ++ ':' :: dumps kv.2 ++ ',' :: dumpsFields rest

end

/-- The canonical body string of `_sign` (script.py:49): empty for a GET
method or an absent body, otherwise the compact JSON serialization. -/
def canonical_body (method : List Char) (body : Option Json) : List Char :=
  match body with
  | Option.none => []
  | some j => if method.map upperChar = ("GET".data) then [] else dumps j

/-- The headers emitted by `_sign` (script.py:42-59). -/
structure SignHeaders where
  apiKey : List Char
  nonce : List Char
  timestamp : List Char
  sign : List Char
  language : List Char
  contentType : List Char
deriving DecidableEq

/-- `_sign` (script.py:42-59). `hashHex` abstracts
`hashlib.sha256(·).hexdigest()` (the SHA-256 lowercase-hex digest of a
string); `nonce` and `ts` are the freshly generated nonce and millisecond
timestamp, passed in as inputs. The request path is an input of the
source method but never enters the signed material. -/
def sign_headers (hashHex : List Char → List Char)
    (api_key api_secret : List Char)
    (method _path : List Char)
    (params : List (List Char × List Char)) (body : Option Json)
    (nonce ts : List Char) : SignHeaders :=
  let qp := canonical_query params
  let body_str := canonical_body method body
  let digest := hashHex (nonce ++ ts ++ api_key ++ qp ++ body_str)
  let sign := hashHex (digest ++ api_secret)
  ⟨api_key, nonce, ts, sign, "en-US".data, "application/json".data⟩

/-- The loop-local mutable state of `main` (script.py:210-213):
`estado` (False = WATCHING, True = MANAGING), `notional_ref`
(`lastNotionalSeen`), the user symbol and the max-loss budget. -/
structure LoopState where
  estado : Bool
  notional_ref : ℚ
  symbol : List Char
  max_loss_usdt : ℚ
deriving DecidableEq

/-- An outbound state-changing API call attempted during one iteration. -/
inductive ApiAction where
  | cancelTpsl (symbol : List Char)
  | cancelOrders (symbol : List Char)
  | placeStop (symbol : List Char) (position_id : List Char) (sl_price : ℚ) (sl_qty : ℚ)
deriving DecidableEq

/-- The environment of one loop iteration: the exchange's responses and
failure modes for each API call that the iteration may perform, plus the
(validated) values the re-prompt would return. -/
structure Env where
  /-- `get_pending_positions` raises (non-2xx, network, …). -/
  pendingPositionsFail : Bool
  /-- Parsed position list when the call succeeds. -/
  pendingPositions : List Record
  /-- `get_trading_pair` raises. -/
  tradingPairFail : Bool
  /-- The instrument-info record when the call succeeds. -/
  tradingPair : Record
  /-- The `_req` inside `cancel_all_tpsl` raises (swallowed by script.py:110-114). -/
  cancelTpslFails : Bool
  /-- `cancel_all_orders` raises (script.py:107-108 has no handler). -/
  cancelOrdersFails : Bool
  /-- `place_tpsl` raises. -/
  placeFails : Bool
  /-- Symbol produced by the re-prompt loop (already USDT-suffixed). -/
  promptSymbol : List Char
  /-- Max-loss budget produced by the re-prompt loop. -/
  promptMaxLoss : ℚ

/-- Outcome of one iteration of the `while True` body (script.py:221-267):
either a next state together with the attempted state-changing calls, or
an exception escaping the iteration with the calls attempted before it. -/
inductive TickResult where
  | ok (st : LoopState) (acts : List ApiAction)
  | raised (acts : List ApiAction)
deriving DecidableEq

/-- One iteration of the polling loop of `main` (script.py:221-267),
faithful to the branch order of the source: MANAGING re-resolves the
position, runs the position-closed cleanup (cancel TP/SL — failures
swallowed inside `cancel_all_tpsl` — then cancel-all-orders, whose
failure escapes), otherwise computes the stop, skips on a non-positive
stop, fetches the instrument info, quantizes — a zero tick (e.g. from a
truthy `tickSize` of `"0"`) makes the `Decimal` division inside
`quantize_price` raise `DivisionByZero`, which escapes the iteration,
modelled by the `tick = 0` raise branch — and places the stop only if
`abs(notional - notional_ref) > 1e-9`; WATCHING transitions to MANAGING
with `notional_ref = 0.0` when a fuzzy-matched position with nonzero
quantity is found. -/
def loop_iter (st : LoopState) (env : Env) : TickResult :=
  if st.estado then
    if env.pendingPositionsFail then TickResult.raised []
    else
      match find_position_fuzzy env.pendingPositions st.symbol with
      | Except.error _ => TickResult.raised []
      | Except.ok found =>
        let posTruthy : Bool := match found with
          | some (p, _) => ¬p.isEmpty
          | Option.none => false
        let target : List Char := match found with
          | some (_, s) => if s.isEmpty then st.symbol else s
          | Option.none => st.symbol
        let fields : Option (List Char × ℚ × ℚ × ℚ × List Char) :=
          if posTruthy then
            match found with
            | some (p, _) => extract_position_fields p
            | Option.none => some ([], 0, 0, 0, [])
          else some ([], 0, 0, 0, [])
        match fields with
        | Option.none => TickResult.raised []
        | some (side, qty, entry, notional, position_id) =>
          if ¬posTruthy ∨ qty = 0 ∨ entry ≤ 0 ∨ notional ≤ 0 ∨ position_id = [] then
            let acts := [ApiAction.cancelTpsl target, ApiAction.cancelOrders target]
            if env.cancelOrdersFails then TickResult.raised acts
            else TickResult.ok ⟨false, 0, env.promptSymbol, env.promptMaxLoss⟩ acts
          else
            let stop_price := stop_price_calc st.max_loss_usdt entry notional side
            if stop_price ≤ 0 then TickResult.ok st []
            else if env.tradingPairFail then TickResult.raised []
            else
              match derive_tick_from_symbol_info env.tradingPair with
              | Option.none => TickResult.raised []
              | some tick =>
                if tick = 0 then TickResult.raised []
                else
                  let stop_q := quantize_price stop_price tick
                  if |notional - st.notional_ref| > 1 / 1000000000 then
                    let act := ApiAction.placeStop target position_id stop_q |qty|
                    if env.placeFails then TickResult.raised [act]
                    else TickResult.ok { st with notional_ref := notional } [act]
                  else TickResult.ok st []
  else
    if env.pendingPositionsFail then TickResult.raised []
    else
      match find_position_fuzzy env.pendingPositions st.symbol with
      | Except.error _ => TickResult.raised []
      | Except.ok found =>
        let posTruthy : Bool := match found with
          | some (p, _) => ¬p.isEmpty
          | Option.none => false
        if posTruthy then
          match (match found with
                 | some (p, _) => extract_position_fields p
                 | Option.none => Option.none) with
          | Option.none => TickResult.raised []
          | some (_, qty, _, _, _) =>
            if qty ≠ 0 then TickResult.ok ⟨true, 0, st.symbol, st.max_loss_usdt⟩ []
            else TickResult.ok st []
        else TickResult.ok st []

/-- Outcome of running the loop against a finite trace of environments. -/
inductive RunResult where
  /-- The trace is exhausted and the loop is still polling. -/
  | running (st : LoopState)
  /-- An exception escaped an iteration; it is caught by the handler that
  wraps the whole `while` loop (script.py:220/270-271), which prints the
  error, after which `main` returns and the process exits. -/
  | errorExit
deriving DecidableEq

/-- The `try: while True: …` of `main` (script.py:220-271) over a finite
environment trace: iterations run in sequence until the trace ends or an
exception escapes an iteration; the surrounding `except` is OUTSIDE the
`while`, so a caught exception ends the loop (and the process), it does
not resume polling. -/
def run_loop (st : LoopState) : List Env → RunResult
  | [] => RunResult.running st
  | env :: rest =>
    match loop_iter st env with
    | TickResult.ok st' _ => run_loop st' rest
    | TickResult.raised _ => RunResult.errorExit

/-- The `root` of `symbol_variants` as the spec describes it: the
uppercased input with a trailing `USDT` stripped when present. -/
def variantsRoot (s : List Char) : List Char :=
  let u := s.map upperChar
  if (['U', 'S', 'D', 'T'] : List Char).isSuffixOf u then u.take (u.length - 4) else u

/-- A WATCHING-mode state for the loop claims. -/
def watchState : LoopState := ⟨false, 0, ("BTCUSDT".data), 50⟩

/-- An iteration whose `get_pending_positions` call fails. -/
def httpFailEnv : Env := ⟨true, [], false, [], false, false, false, ("BTCUSDT".data), 50⟩

/-- An iteration whose calls all succeed and report no open position. -/
def idleEnv : Env := ⟨false, [], false, [], false, false, false, ("BTCUSDT".data), 50⟩

/-- A MANAGING-mode state for the cleanup claims. -/
def managingState : LoopState := ⟨true, 5, ("BTCUSDT".data), 50⟩

/-- Position closed; `cancel_all_orders` fails. -/
def cleanupFailEnv : Env := ⟨false, [], false, [], false, true, false, ("ETHUSDT".data), 20⟩

/-- Position closed; the TP/SL cancel fails (swallowed), the
cancel-all-orders call succeeds. -/
def cleanupOkEnv : Env := ⟨false, [], false, [], true, false, false, ("ETHUSDT".data), 20⟩

/-- A position record that is found by the fuzzy match but fails the
actionable invariant: `qty = 0` (and hence derived notional 0). -/
def closedRecord : Record :=
  [(("symbol".data), PyVal.str ("BTCUSDT".data)), (("side".data), PyVal.str ("LONG".data)),
   (("qty".data), PyVal.num 0), (("avgOpenPrice".data), PyVal.num 100),
   (("positionId".data), PyVal.str ("1".data))]

/-- Environment reporting the closed (qty-0) position; all cancels
succeed. -/
def closedPosEnv : Env :=
  ⟨false, [closedRecord], false, [], false, false, false, ("ETHUSDT".data), 20⟩

/-- An actionable SHORT position whose notional (`positionValue`) is
`1e-10` — positive (actionable) but within the `1e-9` tolerance of the
freshly reset `notional_ref = 0.0`. -/
def tinyNotionalRecord : Record :=
  [(("symbol".data), PyVal.str ("BTCUSDT".data)), (("side".data), PyVal.str ("SHORT".data)),
   (("qty".data), PyVal.num 1), (("avgOpenPrice".data), PyVal.num 100),
   (("positionValue".data), PyVal.num (1 / 10000000000)), (("positionId".data), PyVal.str ("1".data))]

/-- A MANAGING state immediately after the WATCHING→MANAGING transition
(`notional_ref = 0.0`). -/
def managedState0 : LoopState := ⟨true, 0, ("BTCUSDT".data), 50⟩

/-- Environment reporting the tiny-notional position, tick size 0.1. -/
def tinyNotionalEnv : Env :=
  ⟨false, [tinyNotionalRecord], false, [(("tickSize".data), PyVal.num (1 / 10))],
   false, false, false, ("BTCUSDT".data), 50⟩

/-- An actionable LONG position: qty 10, entry 100, notional 1000. -/
def placingRecord : Record :=
  [(("symbol".data), PyVal.str ("BTCUSDT".data)), (("side".data), PyVal.str ("LONG".data)),
   (("qty".data), PyVal.num 10), (("avgOpenPrice".data), PyVal.num 100),
   (("positionValue".data), PyVal.num 1000), (("positionId".data), PyVal.str ("1".data))]

/-- Environment reporting `placingRecord`, tick size 0.1. -/
def placingEnv : Env :=
  ⟨false, [placingRecord], false, [(("tickSize".data), PyVal.num (1 / 10))],
   false, false, false, ("BTCUSDT".data), 50⟩

/-- A WATCHING state about to transition (stale `notional_ref = 7`). -/
def preTransitionState : LoopState := ⟨false, 7, ("BTCUSDT".data), 50⟩

/-- Environment reporting `placingRecord` but a truthy `tickSize` of
`"0"`, which derives a zero tick. -/
def zeroTickEnv : Env :=
  ⟨false, [placingRecord], false, [(("tickSize".data), PyVal.str ['0'])],
   false, false, false, ("BTCUSDT".data), 50⟩

theorem upperChar_idem (c : Char) : upperChar (upperChar c) = upperChar c := by
  unfold upperChar
  by_cases h : 97 ≤ c.toNat ∧ c.toNat ≤ 122
  · rw [if_pos h]
    have hv : (c.toNat - 32).isValidChar := Or.inl (by omega)
    have hn : (Char.ofNat (c.toNat - 32)).toNat = c.toNat - 32 := by
      simp [Char.ofNat, hv]
      rfl
    rw [if_neg]
    rw [hn]
    omega
  · rw [if_neg h, if_neg h]

theorem removePERP_sublist (l : List Char) : (removePERP l).Sublist l := by
  induction l using removePERP.induct with
  | case1 => simp [removePERP]
  | case2 a => simp [removePERP]
  | case3 a b => simp [removePERP]
  | case4 a b c => simp [removePERP]
  | case5 a b c d rest h ih =>
    simp only [removePERP, if_pos h]
    exact ih.trans ((List.sublist_cons_self d rest).trans
      ((List.sublist_cons_self c _).trans ((List.sublist_cons_self b _).trans (List.sublist_cons_self a _))))
  | case6 a b c d rest h ih =>
    simp only [removePERP, if_neg h]
    exact ih.cons₂ a

theorem removePERP_eq_self (l : List Char) (h : ¬ ((['P', 'E', 'R', 'P'] : List Char) <:+: l)) :
    removePERP l = l := by
  induction l using removePERP.induct with
  | case1 => rfl
  | case2 a => rfl
  | case3 a b => rfl
  | case4 a b c => rfl
  | case5 a b c d rest hc _ =>
    exact absurd ⟨[], rest, by simp [hc.1, hc.2.1, hc.2.2.1, hc.2.2.2]⟩ h
  | case6 a b c d rest hc ih =>
    simp only [removePERP, if_neg hc]
    rw [ih (fun hi => h (List.infix_cons hi))]

theorem list_map_fix {α : Type} (f : α → α) (l : List α) (h : ∀ c ∈ l, f c = c) :
    l.map f = l := by
  induction l with
  | nil => rfl
  | cons a t ih =>
    simp only [List.map_cons, h a (List.mem_cons_self a t)]
    rw [ih (fun c hc => h c (List.mem_cons_of_mem a hc))]

theorem mem_normalize_fix (s : List Char) (c : Char) (hc : c ∈ normalize_symbol s) :
    upperChar c = c ∧ ¬(c = '-' ∨ c = '_') := by
  have hmem : c ∈ (s.map upperChar).filter fun c => ¬(c = '-' ∨ c = '_') :=
    (removePERP_sublist _).mem hc
  constructor
  · have : c ∈ s.map upperChar := (List.filter_sublist _).mem hmem
    obtain ⟨d, _, hd⟩ := List.mem_map.mp this
    rw [← hd, upperChar_idem]
  · simpa using List.of_mem_filter hmem

/-- C3, counterexample: the claim `normalize(normalize(s)) = normalize(s)`
for every string fails at `s = "PEPERPRP"`: one removal pass produces the
fresh occurrence `PERP` (`normalize(s) = "PERP"`), which a second pass
removes (`normalize(normalize(s)) = ""`). -/
theorem claim3_counterexample :
    normalize_symbol ("PEPERPRP".data) = ("PERP".data) ∧
    normalize_symbol (normalize_symbol ("PEPERPRP".data)) = [] ∧
    normalize_symbol (normalize_symbol ("PEPERPRP".data)) ≠ normalize_symbol ("PEPERPRP".data) := by
  refine ⟨by decide, by decide, by decide⟩

/-- C3, amended: `normalize` is idempotent on every string whose
normalized form contains no occurrence of `PERP`; in general a removal
pass can create a fresh `PERP` occurrence, which breaks idempotence. -/
theorem claim3_amended (s : List Char)
    (h : ¬ ((['P', 'E', 'R', 'P'] : List Char) <:+: normalize_symbol s)) :
    normalize_symbol (normalize_symbol s) = normalize_symbol s := by
  have hup : (normalize_symbol s).map upperChar = normalize_symbol s :=
    list_map_fix _ _ (fun c hc => (mem_normalize_fix s c hc).1)
  have hfil : ((normalize_symbol s).map upperChar).filter (fun c => ¬(c = '-' ∨ c = '_'))
      = normalize_symbol s := by
    rw [hup]
    exact List.filter_eq_self.mpr (fun c hc => by
      simpa using (mem_normalize_fix s c hc).2)
  show removePERP (((normalize_symbol s).map upperChar).filter fun c => ¬(c = '-' ∨ c = '_'))
      = normalize_symbol s
  rw [hfil]
  exact removePERP_eq_self _ h

/-- C3, witness for the amended theorem at `s = "BTC-USDT"`. -/
theorem claim3_witness :
    (¬ ((['P', 'E', 'R', 'P'] : List Char) <:+: normalize_symbol ("BTC-USDT".data))) ∧
    normalize_symbol (normalize_symbol ("BTC-USDT".data)) = normalize_symbol ("BTC-USDT".data) :=
  ⟨by decide, claim3_amended ("BTC-USDT".data) (by decide)⟩

theorem take_sub_append_of_suffix {u t : List Char}
    (h : t ++ (['U', 'S', 'D', 'T'] : List Char) = u) :
    u.take (u.length - 4) ++ (['U', 'S', 'D', 'T'] : List Char) = u := by
  subst h
  have hl : (t ++ (['U', 'S', 'D', 'T'] : List Char)).length - 4 = t.length := by
    simp
  rw [hl, List.take_left]

theorem four_spellings_nodup (r : List Char) :
    ([r ++ ("USDT".data), r ++ ("_USDT".data), r ++ ("-USDT".data),
      (r ++ ("USDT".data)) ++ ("-PERP".data)] : List (List Char)).Nodup := by
  have cancel : ∀ (a b : List Char), a ≠ b → r ++ a ≠ r ++ b := by
    intro a b hab he
    exact hab (List.append_cancel_left he)
  have h1 : r ++ ("USDT".data) ≠ r ++ ("_USDT".data) := cancel _ _ (by decide)
  have h2 : r ++ ("USDT".data) ≠ r ++ ("-USDT".data) := cancel _ _ (by decide)
  have h3 : r ++ ("USDT".data) ≠ (r ++ ("USDT".data)) ++ ("-PERP".data) := by
    rw [List.append_assoc]
    exact cancel _ _ (by decide)
  have h4 : r ++ ("_USDT".data) ≠ r ++ ("-USDT".data) := cancel _ _ (by decide)
  have h5 : r ++ ("_USDT".data) ≠ (r ++ ("USDT".data)) ++ ("-PERP".data) := by
    rw [List.append_assoc]
    exact cancel _ _ (by decide)
  have h6 : r ++ ("-USDT".data) ≠ (r ++ ("USDT".data)) ++ ("-PERP".data) := by
    rw [List.append_assoc]
    exact cancel _ _ (by decide)
  simp [List.nodup_cons, h1, h2, h3, h4, h5, h6]

theorem symbol_variants_eq_shape (s : List Char) :
    symbol_variants s =
      [variantsRoot s ++ ("USDT".data), variantsRoot s ++ ("_USDT".data),
       variantsRoot s ++ ("-USDT".data), (variantsRoot s ++ ("USDT".data)) ++ ("-PERP".data)] := by
  unfold symbol_variants variantsRoot
  by_cases h : (['U', 'S', 'D', 'T'] : List Char).isSuffixOf (s.map upperChar)
  · obtain ⟨t, ht⟩ := List.isSuffixOf_iff_suffix.mp h
    simp only [h, if_true]
    rw [take_sub_append_of_suffix ht]
  · simp [h]

/-- C8: `variants` uppercases the input, strips a trailing `USDT` to get
`root` (else `root` is the whole uppercased input), and returns exactly
the four spellings `{root}USDT`, `{root}_USDT`, `{root}-USDT`,
`{base}-PERP` with `base = root ++ "USDT"`; the result always has exactly
4 pairwise-distinct elements. -/
theorem claim8_variants_shape (s : List Char) :
    (symbol_variants s =
      [variantsRoot s ++ ("USDT".data), variantsRoot s ++ ("_USDT".data),
       variantsRoot s ++ ("-USDT".data), (variantsRoot s ++ ("USDT".data)) ++ ("-PERP".data)]) ∧
    (symbol_variants s).length = 4 ∧ (symbol_variants s).Nodup := by
  refine ⟨symbol_variants_eq_shape s, by simp [symbol_variants], ?_⟩
  rw [symbol_variants_eq_shape s]
  exact four_spellings_nodup (variantsRoot s)

/-- C7: for every tick `t > 0` and price `p`, the quantized price is
`floor(p / t) × t` in exact arithmetic, it never exceeds `p`, and it is
an exact integer multiple of `t`. -/
theorem claim7_quantize_floor (t p : ℚ) (ht : 0 < t) :
    quantize_price p t ≤ p ∧ (∃ k : ℤ, quantize_price p t = k * t) ∧
    quantize_price p t = (⌊p / t⌋ : ℤ) * t := by
  refine ⟨?_, ⟨⌊p / t⌋, rfl⟩, rfl⟩
  calc ((⌊p / t⌋ : ℤ) : ℚ) * t ≤ (p / t) * t :=
        mul_le_mul_of_nonneg_right (Int.floor_le _) ht.le
    _ = p := div_mul_cancel₀ p (ne_of_gt ht)

/-- C7, witness at `p = 19/10`, `t = 1/2` (quantized value `3/2`). -/
theorem claim7_witness :
    (0 : ℚ) < 1 / 2 ∧
    (quantize_price (19 / 10) (1 / 2) ≤ 19 / 10 ∧
     (∃ k : ℤ, quantize_price (19 / 10) (1 / 2) = k * (1 / 2)) ∧
     quantize_price (19 / 10) (1 / 2) = ((⌊(19 : ℚ) / 10 / (1 / 2)⌋ : ℤ) : ℚ) * (1 / 2)) :=
  ⟨by norm_num, claim7_quantize_floor (1 / 2) (19 / 10) (by norm_num)⟩

/-- C5: the MANAGING-tick stop formula — `pct = maxLoss×100/notional`,
`delta = entry×pct/100`, `entry − delta` for `LONG`/`BUY`, `entry + delta`
otherwise — together with the spec's two concrete scenarios:
entry 100 / notional 1000 / budget 50 / LONG / tick 0.1 quantizes to 95,
and budget 200 / SHORT / tick 1 quantizes to 120. -/
theorem claim5_stop_formula_scenarios :
    (∀ m e n : ℚ, stop_price_calc m e n ("LONG".data) = e - e * ((m * 100 / n) / 100)) ∧
    (∀ m e n : ℚ, stop_price_calc m e n ("BUY".data) = e - e * ((m * 100 / n) / 100)) ∧
    (∀ m e n : ℚ, stop_price_calc m e n ("SHORT".data) = e + e * ((m * 100 / n) / 100)) ∧
    stop_price_calc 50 100 1000 ("LONG".data) = 95 ∧
    quantize_price (stop_price_calc 50 100 1000 ("LONG".data)) (1 / 10) = 95 ∧
    stop_price_calc 200 100 1000 ("SHORT".data) = 120 ∧
    quantize_price (stop_price_calc 200 100 1000 ("SHORT".data)) 1 = 120 := by
  refine ⟨?_, ?_, ?_, ?_, ?_, ?_, ?_⟩
  · intro m e n
    simp +decide [stop_price_calc]
  · intro m e n
    simp +decide [stop_price_calc]
  · intro m e n
    simp +decide [stop_price_calc]
  · norm_num +decide [stop_price_calc]
  · norm_num +decide [stop_price_calc, quantize_price]
  · norm_num +decide [stop_price_calc]
  · norm_num +decide [stop_price_calc, quantize_price]

/-- C10: any extracted side other than `LONG`/`BUY` — `SELL`, `SHORT`,
the empty string (the default when no side field is present), anything —
falls to the short-side branch `entry + delta`, which for positive
budget/entry/notional lies strictly above the entry price; and `extract`
on a record with none of the three side fields yields the empty side. -/
theorem claim10_unknown_side_short_branch (side : List Char)
    (h1 : side ≠ ("LONG".data)) (h2 : side ≠ ("BUY".data)) :
    (∀ m e n : ℚ, stop_price_calc m e n side = e + e * ((m * 100 / n) / 100)) ∧
    (∀ m e n : ℚ, 0 < m → 0 < e → 0 < n → e < stop_price_calc m e n side) ∧
    (∀ p : Record, recGet p ("side".data) = PyVal.none →
      recGet p ("positionSide".data) = PyVal.none →
      recGet p ("posSide".data) = PyVal.none →
      ∀ t, extract_position_fields p = some t → t.1 = []) := by
  have hform : ∀ m e n : ℚ, stop_price_calc m e n side = e + e * ((m * 100 / n) / 100) := by
    intro m e n
    unfold stop_price_calc
    rw [if_neg (not_or.mpr ⟨h1, h2⟩)]
  refine ⟨hform, ?_, ?_⟩
  · intro m e n hm he hn
    rw [hform]
    have : 0 < e * ((m * 100 / n) / 100) := by positivity
    linarith
  · intro p hs1 hs2 hs3 t ht
    unfold extract_position_fields at ht
    rw [hs1, hs2, hs3] at ht
    simp [pyOr, truthy, upperOfVal] at ht
    rw [← ht]

/-- C10, witness at side `SELL`, budget 50, entry 100, notional 1000, and
a record with no side field. -/
theorem claim10_witness :
    ("SELL".data) ≠ ("LONG".data) ∧ ("SELL".data) ≠ ("BUY".data) ∧
    stop_price_calc 50 100 1000 ("SELL".data) = 100 + 100 * ((50 * 100 / 1000) / 100) ∧
    (100 : ℚ) < stop_price_calc 50 100 1000 ("SELL".data) ∧
    (∀ t, extract_position_fields [(("qty".data), PyVal.num 3)] = some t → t.1 = []) :=
  ⟨by decide, by decide,
   (claim10_unknown_side_short_branch ("SELL".data) (by decide) (by decide)).1 50 100 1000,
   (claim10_unknown_side_short_branch ("SELL".data) (by decide) (by decide)).2.1 50 100 1000
     (by norm_num) (by norm_num) (by norm_num),
   (claim10_unknown_side_short_branch ("SELL".data) (by decide) (by decide)).2.2
     [(("qty".data), PyVal.num 3)] rfl rfl rfl⟩

/-- C4, counterexample: a record with no `positionId` field but with an
`id` field yields a non-empty position id — `extract` falls back to `id`,
so "missing `positionId`" alone does not force an empty id. -/
theorem claim4_counterexample :
    extract_position_fields [(("id".data), PyVal.str ['5'])] = some ([], 0, 0, 0, ['5']) ∧
    (['5'] : List Char) ≠ [] := by
  exact ⟨by decide, by decide⟩

/-- C4, amended: a record carrying neither a `positionId` nor an `id`
value (missing or `None`) yields an empty position id — hence a
non-actionable position — regardless of all other fields. -/
theorem claim4_amended (p : Record)
    (h1 : recGet p ("positionId".data) = PyVal.none)
    (h2 : recGet p ("id".data) = PyVal.none) :
    ∀ t, extract_position_fields p = some t → t.2.2.2.2 = [] ∧ ¬actionable t := by
  intro t ht
  unfold extract_position_fields at ht
  rw [h1, h2] at ht
  cases hu : upperOfVal (pyOr (pyOr (pyOr (recGet p ("side".data)) (recGet p ("positionSide".data))) (recGet p ("posSide".data))) (PyVal.str [])) with
  | none => rw [hu] at ht; exact absurd ht (by simp)
  | some side =>
    rw [hu] at ht
    simp only [Option.some.injEq] at ht
    have hid : t.2.2.2.2 = [] := by
      rw [← ht]
      simp [pyOr, truthy, pyStr]
    refine ⟨hid, fun ha => ?_⟩
    exact ha.2.2.2 hid

/-- C4, witness for the amended theorem: a record with only a `qty`
field. -/
theorem claim4_witness :
    recGet [(("qty".data), PyVal.num 3)] ("positionId".data) = PyVal.none ∧
    recGet [(("qty".data), PyVal.num 3)] ("id".data) = PyVal.none ∧
    (([], 3, 0, 0, []) : List Char × ℚ × ℚ × ℚ × List Char).2.2.2.2 = [] ∧
    ¬actionable (([], 3, 0, 0, []) : List Char × ℚ × ℚ × ℚ × List Char) :=
  ⟨rfl, rfl,
   (claim4_amended [(("qty".data), PyVal.num 3)] rfl rfl ([], 3, 0, 0, []) (by decide)).1,
   (claim4_amended [(("qty".data), PyVal.num 3)] rfl rfl ([], 3, 0, 0, []) (by decide)).2⟩

theorem lexLe_trans : ∀ a b c : List Char,
    lexLe a b = true → lexLe b c = true → lexLe a c = true := by
  intro a
  induction a with
  | nil => intro b c _ _; rfl
  | cons x xs ih =>
    intro b c h1 h2
    cases b with
    | nil => simp [lexLe] at h1
    | cons y ys =>
      cases c with
      | nil => simp [lexLe] at h2
      | cons z zs =>
        simp only [lexLe] at h1 h2 ⊢
        rcases Nat.lt_trichotomy x.toNat y.toNat with hxy | hxy | hxy
        · rcases Nat.lt_trichotomy y.toNat z.toNat with hyz | hyz | hyz
          · rw [if_pos (by omega)]
          · rw [if_pos (by omega)]
          · rw [if_neg (by omega), if_pos hyz] at h2
            exact absurd h2 (by simp)
        · rw [if_neg (by omega), if_neg (by omega)] at h1
          rcases Nat.lt_trichotomy y.toNat z.toNat with hyz | hyz | hyz
          · rw [if_pos (by omega)]
          · rw [if_neg (by omega), if_neg (by omega)] at h2
            rw [if_neg (by omega), if_neg (by omega)]
            exact ih ys zs h1 h2
          · rw [if_neg (by omega), if_pos hyz] at h2
            exact absurd h2 (by simp)
        · rw [if_neg (by omega), if_pos hxy] at h1
          exact absurd h1 (by simp)

theorem lexLe_total : ∀ a b : List Char, (lexLe a b || lexLe b a) = true := by
  intro a
  induction a with
  | nil => intro b; rfl
  | cons x xs ih =>
    intro b
    cases b with
    | nil => simp [lexLe]
    | cons y ys =>
      simp only [lexLe]
      rcases Nat.lt_trichotomy x.toNat y.toNat with hxy | hxy | hxy
      · rw [if_pos hxy]
        rfl
      · rw [if_neg (by omega), if_neg (by omega), if_neg (by omega), if_neg (by omega)]
        exact ih ys
      · rw [if_neg (by omega), if_pos hxy, if_pos hxy]
        simp

theorem keyLe_trans (a b c : List Char × List Char)
    (h1 : keyLe a b = true) (h2 : keyLe b c = true) : keyLe a c = true :=
  lexLe_trans a.1 b.1 c.1 h1 h2

theorem keyLe_total (a b : List Char × List Char) : (keyLe a b || keyLe b a) = true :=
  lexLe_total a.1 b.1

/-- C9: the produced `sign` header is
`H(H(nonce ‖ ts ‖ apiKey ‖ canonicalQuery ‖ canonicalBody) ‖ apiSecret)`
where `H` is the SHA-256 lowercase-hex digest; the canonical query is the
parameter pairs sorted by key (lexicographically, a permutation of the
input) concatenated as `key=value` with no separators; the canonical body
is empty for a GET method or an absent body, and the compact JSON
serialization otherwise; the key/nonce/timestamp headers carry the
inputs. -/
theorem claim9_sign_structure (hashHex : List Char → List Char)
    (api_key api_secret method path nonce ts : List Char)
    (params : List (List Char × List Char)) (body : Option Json) :
    ((sign_headers hashHex api_key api_secret method path params body nonce ts).sign
      = hashHex (hashHex (nonce ++ ts ++ api_key ++ canonical_query params
          ++ canonical_body method body) ++ api_secret)) ∧
    ((sign_headers hashHex api_key api_secret method path params body nonce ts).apiKey = api_key) ∧
    ((sign_headers hashHex api_key api_secret method path params body nonce ts).nonce = nonce) ∧
    ((sign_headers hashHex api_key api_secret method path params body nonce ts).timestamp = ts) ∧
    (canonical_query params
      = ((params.mergeSort keyLe).map fun kv => kv.1 ++ '=' :: kv.2).flatten) ∧
    (((params.mergeSort keyLe).map Prod.fst).Pairwise fun a b => lexLe a b = true) ∧
    ((params.mergeSort keyLe).Perm params) ∧
    (canonical_body method Option.none = []) ∧
    (∀ j, method.map upperChar = ("GET".data) → canonical_body method (some j) = []) ∧
    (∀ j, method.map upperChar ≠ ("GET".data) → canonical_body method (some j) = dumps j) := by
  refine ⟨rfl, rfl, rfl, rfl, ?_, ?_, List.mergeSort_perm params keyLe, rfl, ?_, ?_⟩
  · by_cases h : params.isEmpty
    · have : params = [] := List.isEmpty_iff.mp h
      subst this
      simp [canonical_query]
    · unfold canonical_query
      rw [if_neg h]
  · have hs := List.sorted_mergeSort keyLe_trans keyLe_total params
    exact List.pairwise_map.mpr hs
  · intro j h
    simp [canonical_body, h]
  · intro j h
    simp [canonical_body, h]

theorem run_loop_raised_exits (st : LoopState) (env : Env) (envs : List Env)
    (acts : List ApiAction) (h : loop_iter st env = TickResult.raised acts) :
    run_loop st (env :: envs) = RunResult.errorExit := by
  simp [run_loop, h]

theorem run_loop_ok_step (st st' : LoopState) (env : Env) (envs : List Env)
    (acts : List ApiAction) (h : loop_iter st env = TickResult.ok st' acts) :
    run_loop st (env :: envs) = run_loop st' envs := by
  simp [run_loop, h]

theorem loop_iter_cleanup_eq (st : LoopState) (env : Env)
    (hm : st.estado = true) (hpf : env.pendingPositionsFail = false)
    (hf : find_position_fuzzy env.pendingPositions st.symbol = Except.ok Option.none) :
    loop_iter st env =
      if env.cancelOrdersFails then
        TickResult.raised [ApiAction.cancelTpsl st.symbol, ApiAction.cancelOrders st.symbol]
      else
        TickResult.ok ⟨false, 0, env.promptSymbol, env.promptMaxLoss⟩
          [ApiAction.cancelTpsl st.symbol, ApiAction.cancelOrders st.symbol] := by
  simp [loop_iter, hm, hpf, hf]

theorem loop_iter_cleanup_found_eq (st : LoopState) (env : Env)
    (p : Record) (api side : List Char) (qty entry notional : ℚ) (pid : List Char)
    (hm : st.estado = true) (hpf : env.pendingPositionsFail = false)
    (hf : find_position_fuzzy env.pendingPositions st.symbol = Except.ok (some (p, api)))
    (hp : p ≠ [])
    (he : extract_position_fields p = some (side, qty, entry, notional, pid))
    (hcond : qty = 0 ∨ entry ≤ 0 ∨ notional ≤ 0 ∨ pid = []) :
    loop_iter st env =
      if env.cancelOrdersFails then
        TickResult.raised [ApiAction.cancelTpsl (if api.isEmpty then st.symbol else api),
          ApiAction.cancelOrders (if api.isEmpty then st.symbol else api)]
      else
        TickResult.ok ⟨false, 0, env.promptSymbol, env.promptMaxLoss⟩
          [ApiAction.cancelTpsl (if api.isEmpty then st.symbol else api),
           ApiAction.cancelOrders (if api.isEmpty then st.symbol else api)] := by
  have h1 : p.isEmpty = false := List.isEmpty_eq_false.mpr hp
  rcases hcond with h | h | h | h
  · simp [loop_iter, hm, hpf, hf, he, h1, h]
  · simp [loop_iter, hm, hpf, hf, he, h1, h]
  · simp [loop_iter, hm, hpf, hf, he, h1, h]
  · simp [loop_iter, hm, hpf, hf, he, h1, h]

theorem loop_iter_managing_eq (st : LoopState) (env : Env)
    (p : Record) (api side : List Char) (qty entry notional : ℚ) (pid : List Char) (tick : ℚ)
    (hm : st.estado = true) (hpf : env.pendingPositionsFail = false)
    (hf : find_position_fuzzy env.pendingPositions st.symbol = Except.ok (some (p, api)))
    (hp : p ≠ [])
    (he : extract_position_fields p = some (side, qty, entry, notional, pid))
    (hq : qty ≠ 0) (hen : 0 < entry) (hno : 0 < notional) (hpid : pid ≠ [])
    (hsp : 0 < stop_price_calc st.max_loss_usdt entry notional side)
    (htf : env.tradingPairFail = false)
    (htick : derive_tick_from_symbol_info env.tradingPair = some tick)
    (htick0 : tick ≠ 0)
    (hplace : env.placeFails = false) :
    loop_iter st env =
      if |notional - st.notional_ref| > 1 / 1000000000 then
        TickResult.ok { st with notional_ref := notional }
          [ApiAction.placeStop (if api.isEmpty then st.symbol else api) pid
            (quantize_price (stop_price_calc st.max_loss_usdt entry notional side) tick) |qty|]
      else TickResult.ok st [] := by
  have h1 : p.isEmpty = false := List.isEmpty_eq_false.mpr hp
  have h2 : ¬(entry ≤ 0) := not_le.mpr hen
  have h3 : ¬(notional ≤ 0) := not_le.mpr hno
  have h4 : ¬(stop_price_calc st.max_loss_usdt entry notional side ≤ 0) := not_le.mpr hsp
  simp [loop_iter, hm, hpf, hf, he, h1, hq, h2, h3, hpid, h4, htf, htick, htick0, hplace]

theorem loop_iter_zero_tick_raises :
    derive_tick_from_symbol_info [(("tickSize".data), PyVal.str ['0'])] = some 0 ∧
    loop_iter managedState0 zeroTickEnv = TickResult.raised [] := by
  constructor
  · norm_num +decide [derive_tick_from_symbol_info, recGet, pyOr, truthy, floatOfVal,
      parseFloat, parseMantissa, parseInt, digitsVal, isDigitChar]
  · norm_num +decide [loop_iter, managedState0, zeroTickEnv, find_position_fuzzy,
      find_position_go, placingRecord, recGet, upperOfVal, pyOr, truthy, upperChar,
      symbol_variants, normalize_symbol, removePERP, extract_position_fields, safe_float,
      floatOfVal, pyStr, stop_price_calc, derive_tick_from_symbol_info, parseFloat,
      parseMantissa, parseInt, digitsVal, isDigitChar, quantize_price, abs_le]

theorem loop_iter_transition_eq (st : LoopState) (env : Env)
    (p : Record) (api side : List Char) (qty entry notional : ℚ) (pid : List Char)
    (hw : st.estado = false) (hpf : env.pendingPositionsFail = false)
    (hf : find_position_fuzzy env.pendingPositions st.symbol = Except.ok (some (p, api)))
    (hp : p ≠ [])
    (he : extract_position_fields p = some (side, qty, entry, notional, pid))
    (hq : qty ≠ 0) :
    loop_iter st env = TickResult.ok ⟨true, 0, st.symbol, st.max_loss_usdt⟩ [] := by
  have h1 : p.isEmpty = false := List.isEmpty_eq_false.mpr hp
  simp [loop_iter, hw, hpf, hf, he, h1, hq]

/-- C1, counterexample: with an HTTP failure in the first iteration, the
run ends in `errorExit` — the handler sits outside the `while`, so after
catching and printing, `main` returns and the process exits; the second
(healthy) environment is never polled. The third conjunct shows the
contrast: without the error the loop is still polling after the same
healthy iteration. -/
theorem claim1_counterexample :
    loop_iter watchState httpFailEnv = TickResult.raised [] ∧
    run_loop watchState [httpFailEnv, idleEnv] = RunResult.errorExit ∧
    run_loop watchState [idleEnv] = RunResult.running watchState := by
  refine ⟨by simp [loop_iter, watchState, httpFailEnv], ?_, ?_⟩
  · simp [run_loop, loop_iter, watchState, httpFailEnv]
  · simp [run_loop, loop_iter, watchState, idleEnv, find_position_fuzzy, find_position_go]

/-- C1, amended: an HTTP-call failure raised during an iteration is
caught by the top-level handler and printed, but the loop does NOT
continue: the handler is outside the `while` loop, so the error ends the
polling loop and `main` returns (process exit). Exiting is therefore not
restricted to the user-interrupt path. -/
theorem claim1_amended (st : LoopState) (env : Env) (envs : List Env)
    (acts : List ApiAction) (h : loop_iter st env = TickResult.raised acts) :
    run_loop st (env :: envs) = RunResult.errorExit ∧
    ∀ st2, run_loop st (env :: envs) ≠ RunResult.running st2 := by
  have he := run_loop_raised_exits st env envs acts h
  exact ⟨he, fun st2 => by rw [he]; exact fun hc => RunResult.noConfusion hc⟩

/-- C1, witness for the amended theorem at the failing environment. -/
theorem claim1_witness :
    loop_iter watchState httpFailEnv = TickResult.raised [] ∧
    run_loop watchState [httpFailEnv] = RunResult.errorExit :=
  ⟨by simp [loop_iter, watchState, httpFailEnv],
   (claim1_amended watchState httpFailEnv [] []
     (by simp [loop_iter, watchState, httpFailEnv])).1⟩

/-- C2, counterexample: on the position-closed cleanup path, a failing
`cancel_all_orders` call raises out of the cleanup step (the method has
no handler, unlike `cancel_all_tpsl`): the iteration ends in `raised`
after both cancels were attempted, the state is NOT reset and no
re-prompt happens. -/
theorem claim2_counterexample :
    find_position_fuzzy cleanupFailEnv.pendingPositions managingState.symbol
      = Except.ok Option.none ∧
    loop_iter managingState cleanupFailEnv =
      TickResult.raised [ApiAction.cancelTpsl ("BTCUSDT".data), ApiAction.cancelOrders ("BTCUSDT".data)] := by
  refine ⟨rfl, ?_⟩
  simp [loop_iter, managingState, cleanupFailEnv, find_position_fuzzy, find_position_go]

/-- C2, amended: on either entry to the position-closed cleanup path of
a MANAGING tick — position not fuzzy-matched at all (first conjunct), or
matched but failing the actionable invariant: `qty = 0`, `entry ≤ 0`,
`notional ≤ 0` or an empty position id (second conjunct) — both cancels
are attempted; a `cancel_all_tpsl` failure is swallowed inside the
client method (neither outcome depends on `env.cancelTpslFails`), but a
`cancel_all_orders` failure propagates out of the cleanup step and ends
the iteration (and with it the loop) without resetting the state; only
when `cancel_all_orders` succeeds is the state reset to WATCHING with
the re-prompted inputs. -/
theorem claim2_amended (st : LoopState) (env : Env)
    (hm : st.estado = true) (hpf : env.pendingPositionsFail = false) :
    (find_position_fuzzy env.pendingPositions st.symbol = Except.ok Option.none →
      loop_iter st env =
        if env.cancelOrdersFails then
          TickResult.raised [ApiAction.cancelTpsl st.symbol, ApiAction.cancelOrders st.symbol]
        else
          TickResult.ok ⟨false, 0, env.promptSymbol, env.promptMaxLoss⟩
            [ApiAction.cancelTpsl st.symbol, ApiAction.cancelOrders st.symbol]) ∧
    (∀ (p : Record) (api side : List Char) (qty entry notional : ℚ) (pid : List Char),
      find_position_fuzzy env.pendingPositions st.symbol = Except.ok (some (p, api)) →
      p ≠ [] →
      extract_position_fields p = some (side, qty, entry, notional, pid) →
      (qty = 0 ∨ entry ≤ 0 ∨ notional ≤ 0 ∨ pid = []) →
      loop_iter st env =
        if env.cancelOrdersFails then
          TickResult.raised [ApiAction.cancelTpsl (if api.isEmpty then st.symbol else api),
            ApiAction.cancelOrders (if api.isEmpty then st.symbol else api)]
        else
          TickResult.ok ⟨false, 0, env.promptSymbol, env.promptMaxLoss⟩
            [ApiAction.cancelTpsl (if api.isEmpty then st.symbol else api),
             ApiAction.cancelOrders (if api.isEmpty then st.symbol else api)]) :=
  ⟨fun hf => loop_iter_cleanup_eq st env hm hpf hf,
   fun p api side qty entry notional pid hf hp he hcond =>
     loop_iter_cleanup_found_eq st env p api side qty entry notional pid hm hpf hf hp he hcond⟩

/-- C2, witness, both cleanup entries: position not found with the TP/SL
cancel failing (swallowed) — state reset and re-prompted inputs
installed — and a found position with `qty = 0` (non-actionable) — same
cleanup, cancels against the resolved symbol, state reset. -/
theorem claim2_witness :
    managingState.estado = true ∧
    cleanupOkEnv.cancelTpslFails = true ∧
    cleanupOkEnv.cancelOrdersFails = false ∧
    loop_iter managingState cleanupOkEnv =
      TickResult.ok ⟨false, 0, ("ETHUSDT".data), 20⟩
        [ApiAction.cancelTpsl ("BTCUSDT".data), ApiAction.cancelOrders ("BTCUSDT".data)] ∧
    extract_position_fields closedRecord = some (("LONG".data), 0, 100, 0, ("1".data)) ∧
    loop_iter managingState closedPosEnv =
      TickResult.ok ⟨false, 0, ("ETHUSDT".data), 20⟩
        [ApiAction.cancelTpsl ("BTCUSDT".data), ApiAction.cancelOrders ("BTCUSDT".data)] := by
  have he : extract_position_fields closedRecord
      = some (("LONG".data), 0, 100, 0, ("1".data)) := by
    norm_num +decide [extract_position_fields, closedRecord, recGet, upperOfVal, pyOr,
      truthy, safe_float, floatOfVal, pyStr, upperChar]
  have hffound : find_position_fuzzy [closedRecord] ("BTCUSDT".data)
      = Except.ok (some (closedRecord, ("BTCUSDT".data))) := by
    norm_num +decide [find_position_fuzzy, find_position_go, closedRecord, recGet,
      upperOfVal, pyOr, truthy, upperChar, symbol_variants, normalize_symbol, removePERP]
  refine ⟨rfl, rfl, rfl, ?_, he, ?_⟩
  · rw [(claim2_amended managingState cleanupOkEnv rfl rfl).1 rfl]
    rfl
  · rw [(claim2_amended managingState closedPosEnv rfl rfl).2 closedRecord ("BTCUSDT".data)
      ("LONG".data) 0 100 0 ("1".data) hffound (by simp [closedRecord]) he (Or.inl rfl)]
    rfl

/-- C6, counterexample: on the first MANAGING tick after the transition
(`notional_ref = 0`), an actionable position whose notional is `1e-10`
places NO stop — `|1e-10 − 0| > 1e-9` is false — refuting "the first
MANAGING tick on any actionable position always issues a stop". -/
theorem claim6_counterexample :
    extract_position_fields tinyNotionalRecord
      = some (("SHORT".data), 1, 100, 1 / 10000000000, ("1".data)) ∧
    actionable (("SHORT".data), 1, 100, 1 / 10000000000, ("1".data)) ∧
    managedState0.estado = true ∧ managedState0.notional_ref = 0 ∧
    loop_iter managedState0 tinyNotionalEnv = TickResult.ok managedState0 [] := by
  refine ⟨?_, ?_, rfl, rfl, ?_⟩
  · norm_num +decide [extract_position_fields, tinyNotionalRecord, recGet, upperOfVal, pyOr,
      truthy, safe_float, floatOfVal, pyStr, upperChar]
  · refine ⟨by norm_num, by norm_num, by norm_num, by decide⟩
  · norm_num +decide [loop_iter, managedState0, tinyNotionalEnv, find_position_fuzzy,
      find_position_go, tinyNotionalRecord, recGet, upperOfVal, pyOr, truthy, upperChar,
      symbol_variants, normalize_symbol, removePERP, extract_position_fields, safe_float,
      floatOfVal, pyStr, stop_price_calc, derive_tick_from_symbol_info, quantize_price, abs_le]

/-- C6, amended: on the success path of a MANAGING tick (actionable
position, positive stop, instrument metadata available with a nonzero
derived tick — a zero tick raises inside `quantize_price` instead), a
stop is placed iff `|notional − notional_ref| > 1e-9`, and placement updates
`notional_ref` to the current notional (first conjunct); a consecutive
tick that sees the same notional places nothing (second conjunct); the
WATCHING→MANAGING transition resets `notional_ref` to `0.0` — not to an
out-of-band sentinel — so the first MANAGING tick places a stop exactly
when the notional clears the `1e-9` tolerance (third conjunct gives the
transition equation). -/
theorem claim6_amended (st : LoopState) (env : Env)
    (p : Record) (api side : List Char) (qty entry notional : ℚ) (pid : List Char) (tick : ℚ)
    (hm : st.estado = true) (hpf : env.pendingPositionsFail = false)
    (hf : find_position_fuzzy env.pendingPositions st.symbol = Except.ok (some (p, api)))
    (hp : p ≠ [])
    (he : extract_position_fields p = some (side, qty, entry, notional, pid))
    (hq : qty ≠ 0) (hen : 0 < entry) (hno : 0 < notional) (hpid : pid ≠ [])
    (hsp : 0 < stop_price_calc st.max_loss_usdt entry notional side)
    (htf : env.tradingPairFail = false)
    (htick : derive_tick_from_symbol_info env.tradingPair = some tick)
    (htick0 : tick ≠ 0)
    (hplace : env.placeFails = false) :
    (loop_iter st env =
      if |notional - st.notional_ref| > 1 / 1000000000 then
        TickResult.ok { st with notional_ref := notional }
          [ApiAction.placeStop (if api.isEmpty then st.symbol else api) pid
            (quantize_price (stop_price_calc st.max_loss_usdt entry notional side) tick) |qty|]
      else TickResult.ok st []) ∧
    (loop_iter { st with notional_ref := notional } env
      = TickResult.ok { st with notional_ref := notional } []) ∧
    (∀ (st2 : LoopState) (env2 : Env) (p2 : Record) (api2 side2 : List Char)
        (qty2 entry2 notional2 : ℚ) (pid2 : List Char),
      st2.estado = false → env2.pendingPositionsFail = false →
      find_position_fuzzy env2.pendingPositions st2.symbol = Except.ok (some (p2, api2)) →
      p2 ≠ [] →
      extract_position_fields p2 = some (side2, qty2, entry2, notional2, pid2) →
      qty2 ≠ 0 →
      loop_iter st2 env2 = TickResult.ok ⟨true, 0, st2.symbol, st2.max_loss_usdt⟩ []) := by
  refine ⟨loop_iter_managing_eq st env p api side qty entry notional pid tick
      hm hpf hf hp he hq hen hno hpid hsp htf htick htick0 hplace, ?_, ?_⟩
  · rw [loop_iter_managing_eq { st with notional_ref := notional } env p api side qty entry
        notional pid tick hm hpf hf hp he hq hen hno hpid hsp htf htick htick0 hplace]
    rw [if_neg]
    simp
  · intro st2 env2 p2 api2 side2 qty2 entry2 notional2 pid2 hw2 hpf2 hf2 hp2 he2 hq2
    exact loop_iter_transition_eq st2 env2 p2 api2 side2 qty2 entry2 notional2 pid2
      hw2 hpf2 hf2 hp2 he2 hq2

/-- C6, witness: the first MANAGING tick (`notional_ref = 0`) on the
notional-1000 position places the quantized stop 95 and updates
`notional_ref` to 1000; the next tick with the unchanged notional places
nothing; and the WATCHING→MANAGING transition resets `notional_ref` to
0. -/
theorem claim6_witness :
    extract_position_fields placingRecord = some (("LONG".data), 10, 100, 1000, ("1".data)) ∧
    0 < stop_price_calc 50 100 1000 ("LONG".data) ∧
    loop_iter managedState0 placingEnv =
      TickResult.ok ⟨true, 1000, ("BTCUSDT".data), 50⟩
        [ApiAction.placeStop ("BTCUSDT".data) ("1".data) 95 10] ∧
    loop_iter ⟨true, 1000, ("BTCUSDT".data), 50⟩ placingEnv
      = TickResult.ok ⟨true, 1000, ("BTCUSDT".data), 50⟩ [] ∧
    loop_iter preTransitionState placingEnv
      = TickResult.ok ⟨true, 0, ("BTCUSDT".data), 50⟩ [] := by
  have hf : find_position_fuzzy [placingRecord] ("BTCUSDT".data)
      = Except.ok (some (placingRecord, ("BTCUSDT".data))) := by
    norm_num +decide [find_position_fuzzy, find_position_go, placingRecord, recGet,
      upperOfVal, pyOr, truthy, upperChar, symbol_variants, normalize_symbol, removePERP]
  have he : extract_position_fields placingRecord
      = some (("LONG".data), 10, 100, 1000, ("1".data)) := by
    norm_num +decide [extract_position_fields, placingRecord, recGet, upperOfVal, pyOr,
      truthy, safe_float, floatOfVal, pyStr, upperChar]
  have htick : derive_tick_from_symbol_info [(("tickSize".data), PyVal.num (1 / 10))]
      = some (1 / 10) := by
    norm_num +decide [derive_tick_from_symbol_info, recGet, pyOr, truthy, floatOfVal]
  have hsp : 0 < stop_price_calc 50 100 1000 ("LONG".data) := by
    norm_num +decide [stop_price_calc]
  have big := claim6_amended managedState0 placingEnv placingRecord ("BTCUSDT".data)
    ("LONG".data) 10 100 1000 ("1".data) (1 / 10) rfl rfl hf (by simp [placingRecord]) he
    (by norm_num) (by norm_num) (by norm_num) (by decide) hsp rfl htick (by norm_num) rfl
  refine ⟨he, hsp, ?_, big.2.1, ?_⟩
  · rw [big.1, if_pos (by norm_num [managedState0])]
    norm_num +decide [managedState0, stop_price_calc, quantize_price]
  · exact big.2.2 preTransitionState placingEnv placingRecord ("BTCUSDT".data)
      ("LONG".data) 10 100 1000 ("1".data) rfl rfl hf (by simp [placingRecord]) he
      (by norm_num)
